import Mathlib

/-!
Shallow Lean embedding of the two comparison scripts of the DATs repository:
src/compare_dat_files/compare_dat_files.py and
src/compare_yml_files/compare_yml_files.py.

The filesystem is modelled as a static snapshot (an association list from
absolute path to the observable metadata of the file), machine concurrency is
modelled by passing the nondeterministic completion order of the worker pool
explicitly, and the uncaught Python exceptions are modelled with Except.
-/

/-! ## Path strings -/

/-- Character-list prefix test, used to model path prefix checks. -/
def listIsPrefix : List Char → List Char → Bool
  | [], _ => true
  | _ :: _, [] => false
  | a :: as, b :: bs => if a = b then listIsPrefix as bs else false

/-- Character-list suffix test, used to model str.endswith. -/
def listIsSuffix (pat s : List Char) : Bool :=
  listIsPrefix pat.reverse s.reverse

/-- Appending a path component after a separator, modelling
os.path.join(root, rel) for a root with no trailing separator. -/
def pathJoin (root rel : String) : String :=
  String.mk (root.data ++ '/' :: rel.data)

/-- Models os.path.relpath(p, root) restricted to the way the scripts use it:
when p lies under root the leading root and its separator are removed, and
otherwise none is returned. -/
def stripRoot (root p : String) : Option String :=
  if listIsPrefix (root.data ++ ['/']) p.data then
    some (String.mk (p.data.drop (root.data.length + 1)))
  else none

/-- The value os.path.relpath(p, root) takes on the paths the scripts feed it
(paths produced by walking root); outside that domain the model falls back to
p itself. -/
def relPathUnder (root p : String) : String :=
  match stripRoot root p with
  | some rel => rel
  | none => p

/-! ## The DAT comparison script -/

/-- Metadata of a regular file as compare_dat_files.py observes it: the
modification time that os.path.getmtime returns and the hex digest that
compute_file_hash produces by streaming the content through sha256.  The
content is identified with its digest because the script never inspects the
content in any other way. -/
structure FileInfo where
  contentHash : String
  mtime : Int
deriving DecidableEq

/-- A static snapshot of the filesystem seen by the DAT script: an
association list from absolute path to file metadata; the first entry for a
path wins, as in a real directory tree where paths are unique. -/
abbrev DatFS : Type := List (String × FileInfo)

/-- Looking up a path in the snapshot; none models a missing file, on which
os.path.getmtime and open raise FileNotFoundError. -/
def statFile (fs : DatFS) (p : String) : Option FileInfo :=
  (fs.find? (fun e => decide (e.fst = p))).map (fun e => e.snd)

/-- Models find_dat_files: walk directory_path and return the root-relative
paths of all files whose name ends with ".DAT".  The os.walk recursion is
modelled by filtering the flat snapshot for the paths lying under the root;
a path ends with ".DAT" exactly when its file name does, since the suffix
contains no separator. -/
def find_dat_files (fs : DatFS) (directory_path : String) : List String :=
  fs.filterMap (fun e =>
    if listIsSuffix ".DAT".data e.fst.data then stripRoot directory_path e.fst
    else none)

/-- One entry of the hash cache: the hash and mod_time fields of the JSON
object stored under a path key. -/
structure CacheRecord where
  hash : String
  mod_time : Int
deriving DecidableEq

/-- The in-memory hash cache, a Python dict from absolute path to record,
modelled as an association list whose first entry for a key wins. -/
abbrev Cache : Type := List (String × CacheRecord)

/-- Python dict lookup hash_cache.get(p), none when the key is absent. -/
def cacheGet (c : Cache) (p : String) : Option CacheRecord :=
  (c.find? (fun e => decide (e.fst = p))).map (fun e => e.snd)

/-- Python dict assignment, overwriting any previous record for the key. -/
def cachePut (c : Cache) (p : String) (r : CacheRecord) : Cache :=
  (p, r) :: c

/-- Lines 70 and 71 of compare_dat_files.py: the cached hash provided the
freshness guard holds.  The guard reads the record's mod_time, defaulting to
0 for an absent record, and compares it against the current modification
time; the value read is the record's hash, or none when the record is
absent. -/
def cachedFreshHash (c : Cache) (p : String) (m : Int) : Option String :=
  if (match cacheGet c p with | some r => r.mod_time | none => 0) ≥ m then
    (cacheGet c p).map (fun r => r.hash)
  else none

/-- Python truthiness of the optional hash string: None and the empty string
are both falsy, so the later test `if not hash_a` triggers recomputation for
either. -/
def pyTruthy : Option String → Bool
  | none => false
  | some s => decide (s ≠ "")

/-- The observable outcome of one compare_files call: the returned boolean,
the hash cache after the call, and the list of paths whose content was
streamed and hashed by compute_file_hash, in program order. -/
structure CmpResult where
  differ : Bool
  cache : Cache
  hashed : List String
deriving DecidableEq

/-- A missing or unreadable file, modelling the FileNotFoundError or OSError
that the scripts leave uncaught; the spec calls this class FileAccessError. -/
inductive FileAccessError where
  | missing (path : String)
deriving DecidableEq

/-- The body of compare_files once both stat calls have succeeded: on equal
modification times the call returns False at once without touching the cache;
otherwise both cache lookups of lines 70 and 71 are evaluated against the
entry cache, and each side whose lookup is not truthy has its content hashed
and its cache record overwritten, side a before side b. -/
def compareCore (fa fb : FileInfo) (file_a file_b : String) (cache : Cache) :
    CmpResult :=
  if fa.mtime = fb.mtime then
    ⟨false, cache, []⟩
  else
    let look_a := cachedFreshHash cache file_a fa.mtime
    let look_b := cachedFreshHash cache file_b fb.mtime
    let hash_a := if pyTruthy look_a then look_a.getD "" else fa.contentHash
    let cache1 := if pyTruthy look_a then cache
      else cachePut cache file_a ⟨fa.contentHash, fa.mtime⟩
    let hashed1 : List String := if pyTruthy look_a then [] else [file_a]
    let hash_b := if pyTruthy look_b then look_b.getD "" else fb.contentHash
    let cache2 := if pyTruthy look_b then cache1
      else cachePut cache1 file_b ⟨fb.contentHash, fb.mtime⟩
    let hashed2 := if pyTruthy look_b then hashed1 else hashed1 ++ [file_b]
    ⟨decide (hash_a ≠ hash_b), cache2, hashed2⟩

/-- compare_files of compare_dat_files.py: both sides are joined onto their
roots, the modification times are read (raising FileNotFoundError when a side
is missing), and the comparison body runs on the two results. -/
def compare_files (fs : DatFS) (root_a root_b rel : String) (cache : Cache) :
    Except FileAccessError CmpResult :=
  let file_a := pathJoin root_a rel
  let file_b := pathJoin root_b rel
  match statFile fs file_a with
  | none => .error (.missing file_a)
  | some fa =>
    match statFile fs file_b with
    | none => .error (.missing file_b)
    | some fb => .ok (compareCore fa fb file_a file_b cache)

/-- The submit/as_completed loop of compare_directories, linearized along the
completion order in which the futures are retrieved: each compare_files call
sees the cache state left by the previously completed calls, differing paths
are collected in completion order, and an exception re-raised by
future.result aborts the loop as it does in the script. -/
def runComparisons (fs : DatFS) (root_a root_b : String) (order : List String)
    (cache : Cache) : Except FileAccessError (List String × Cache) :=
  match order with
  | [] => .ok ([], cache)
  | rel :: rest =>
    match compare_files fs root_a root_b rel cache with
    | .error e => .error e
    | .ok r =>
      match runComparisons fs root_a root_b rest r.cache with
      | .error e => .error e
      | .ok (ds, cEnd) => .ok ((if r.differ then rel :: ds else ds), cEnd)

/-- Lines 103 to 105 of compare_dat_files.py: the intersection of the .DAT
listings of the two roots.  The Python value is an unordered set; here it is
the listing of root_a filtered to members of the listing of root_b, and the
theorems treat completion orders up to permutation of it. -/
def common_files (fs : DatFS) (root_a root_b : String) : List String :=
  (find_dat_files fs root_a).filter
    (fun rel => decide (rel ∈ find_dat_files fs root_b))

/-- The on-disk state of the cache file, as compare_directories
distinguishes it: absent (os.path.exists is false), present and well-formed
JSON for a mapping, or present but not valid serialized mapping data, on
which json.load raises. -/
inductive CacheFile where
  | absent
  | wellFormed (c : Cache)
  | malformed
deriving DecidableEq

/-- An uncaught exception escaping compare_directories. -/
inductive RunError where
  | jsonDecodeError
  | fileAccess (e : FileAccessError)
deriving DecidableEq

/-- Lines 96 to 101 of compare_dat_files.py: the cache file is parsed only
when it exists, an absent file yields the empty dict, and a malformed file
makes json.load raise JSONDecodeError, which nothing catches. -/
def loadCache : CacheFile → Except RunError Cache
  | .absent => .ok []
  | .wellFormed c => .ok c
  | .malformed => .error .jsonDecodeError

/-- compare_directories with the nondeterministic completion order passed
explicitly: load the cache, run the comparisons over the files in the given
completion order, and return the differing relative paths together with the
final cache that lines 117 and 118 then persist. -/
def compare_directories (fs : DatFS) (root_a root_b : String)
    (order : List String) (cf : CacheFile) :
    Except RunError (List String × Cache) :=
  match loadCache cf with
  | .error e => .error e
  | .ok cache =>
    match runComparisons fs root_a root_b order cache with
    | .error e => .error (.fileAccess e)
    | .ok res => .ok res

/-! ## Semantic layer for the DAT script -/

/-- The hash the script ends up using for path p with metadata fi under a
given cache state: the cached hash when the lookup of lines 70 and 71 yields
a truthy value, and the freshly streamed content hash otherwise. -/
def effectiveHash (c : Cache) (p : String) (fi : FileInfo) : String :=
  let l := cachedFreshHash c p fi.mtime
  if pyTruthy l then l.getD "" else fi.contentHash

/-- The comparison decision for one relative path as a pure function of the
filesystem and a single fixed cache state. -/
def diffDecision (fs : DatFS) (c : Cache) (root_a root_b rel : String) : Bool :=
  match statFile fs (pathJoin root_a rel), statFile fs (pathJoin root_b rel) with
  | some fa, some fb =>
    decide (fa.mtime ≠ fb.mtime) &&
      decide (effectiveHash c (pathJoin root_a rel) fa ≠
        effectiveHash c (pathJoin root_b rel) fb)
  | _, _ => false

/-- Two cache states are observationally equal over a snapshot when every
existing file receives the same effective hash under both. -/
def EffAgree (fs : DatFS) (c0 c : Cache) : Prop :=
  ∀ p fi, statFile fs p = some fi → effectiveHash c p fi = effectiveHash c0 p fi

/-- Both sides of a relative path exist in the snapshot. -/
def BothExist (fs : DatFS) (root_a root_b rel : String) : Prop :=
  (statFile fs (pathJoin root_a rel)).isSome ∧
    (statFile fs (pathJoin root_b rel)).isSome

/-! ## The YML diff script -/

/-- A text file as compare_yml_files.py observes it: the md5 hex digest that
file_hash streams, and the decoded lines that readlines returns under
errors='replace'. -/
structure YamlFile where
  md5 : String
  lines : List String
deriving DecidableEq

/-- A static snapshot of the filesystem seen by the YML script. -/
abbrev YamlFS : Type := List (String × YamlFile)

/-- Looking up a path in the YML snapshot. -/
def yStat (fs : YamlFS) (p : String) : Option YamlFile :=
  (fs.find? (fun e => decide (e.fst = p))).map (fun e => e.snd)

/-- Models difflib.unified_diff of the Python standard library at the level
of detail the script observes: the diff is empty exactly when the two line
sequences are equal, and otherwise consists of the two file headers followed
by hunk lines.  The hunk body is abbreviated to a full removal and
insertion, which is observationally adequate here because the script only
tests the diff for emptiness and writes its lines verbatim. -/
def unified_diff_model (f1 f2 : String) (a b : List String) : List String :=
  if a = b then []
  else ("--- " ++ f1) :: ("+++ " ++ f2) ::
    (a.map (fun l => "-" ++ l) ++ b.map (fun l => "+" ++ l))

/-- One scan of Python str.replace over a character list, for the nonempty
pattern with head p and tail ps: each occurrence of the pattern is replaced
and the scan resumes after it.  The extra fuel argument makes the recursion
structural; every step consumes at least one character, so fuel equal to the
length of the scanned list is exact and the zero-fuel fallback is never
reached from strReplace. -/
def replaceChars (p : Char) (ps rep : List Char) : Nat → List Char → List Char
  | 0, s => s
  | _ + 1, [] => []
  | fuel + 1, c :: cs =>
    if listIsPrefix (p :: ps) (c :: cs) then
      rep ++ replaceChars p ps rep fuel (cs.drop ps.length)
    else c :: replaceChars p ps rep fuel cs

/-- Models Python str.replace(pat, rep): every occurrence of pat in s is
substituted.  The empty pattern is returned unchanged, a case the script
cannot reach since it passes directory paths as the pattern. -/
def strReplace (s pat rep : String) : String :=
  match pat.data with
  | [] => s
  | p :: ps => String.mk (replaceChars p ps rep.data s.data.length s.data)

/-- Line 103 of compare_yml_files.py: the counterpart of a file of dir1 is
derived with str.replace, substituting every occurrence of dir1 in the
absolute path by dir2. -/
def counterpart (dir1 dir2 f : String) : String :=
  strReplace f dir1 dir2

/-- Modelled from the spec: the counterpart derivation section 6 describes,
dir2 joined with the path of f relative to dir1, so that only the leading
root portion is substituted.  Stated from the spec's words for comparison
with counterpart; falls back to f when f is not under dir1. -/
def specCounterpart (dir1 dir2 f : String) : String :=
  match stripRoot dir1 f with
  | some rel => pathJoin dir2 rel
  | none => f

/-- Models the walk of line 102: all files under dir1, as absolute paths, in
snapshot order. -/
def allFilesUnder (fs : YamlFS) (dir1 : String) : List String :=
  fs.filterMap (fun e => if (stripRoot dir1 e.fst).isSome then some e.fst else none)

/-- Lines 66 and 67: the artifact path for file1, the output directory
joined with the dir1-relative path of file1 carrying a .diff suffix. -/
def diffOutputPath (output_dir dir1 file1 : String) : String :=
  pathJoin output_dir (relPathUnder dir1 file1 ++ ".diff")

/-- compare_file_pair, returning the artifact it writes, if any: some (path,
lines) exactly when the md5 digests differ and the unified diff is nonempty,
and none otherwise, in which case no file at all is created.  An error
models the uncaught FileNotFoundError from file_hash when a path is missing;
hash1 is computed before hash2, so a missing file1 is raised first. -/
def compare_file_pair (fs : YamlFS) (file1 file2 output_dir dir1 : String) :
    Except FileAccessError (Option (String × List String)) :=
  match yStat fs file1 with
  | none => .error (.missing file1)
  | some y1 =>
    match yStat fs file2 with
    | none => .error (.missing file2)
    | some y2 =>
      if y1.md5 ≠ y2.md5 then
        let diff := unified_diff_model file1 file2 y1.lines y2.lines
        if diff ≠ [] then
          .ok (some (diffOutputPath output_dir dir1 file1, diff))
        else .ok none
      else .ok none

/-- The executor.map loop of diff_directories, linearized in submission
order with the fail-fast behavior of iterating the map results: the first
pair whose unit of work raises aborts the run and the pairs after it are
cancelled. -/
def runPairs (fs : YamlFS) (output_dir dir1 : String) :
    List (String × String) → Except FileAccessError (List (String × List String))
  | [] => .ok []
  | (f1, f2) :: rest =>
    match compare_file_pair fs f1 f2 output_dir dir1 with
    | .error e => .error e
    | .ok art =>
      match runPairs fs output_dir dir1 rest with
      | .error e => .error e
      | .ok arts => .ok (match art with | some a => a :: arts | none => arts)

/-- diff_directories: enumerate the files under dir1, derive their
counterparts with str.replace, and process the zipped pairs; the returned
list is the sequence of artifacts written.  The interactive clear_directory
prompt touches only the output directory and is outside the model. -/
def diff_directories (fs : YamlFS) (dir1 dir2 output_dir : String) :
    Except FileAccessError (List (String × List String)) :=
  let files1 := allFilesUnder fs dir1
  let files2 := files1.map (fun f => counterpart dir1 dir2 f)
  runPairs fs output_dir dir1 (files1.zip files2)

/-! ## Helper lemmas: caches and lookups -/

theorem cacheGet_cachePut_self (c : Cache) (p : String) (r : CacheRecord) :
    cacheGet (cachePut c p r) p = some r := by
  simp [cacheGet, cachePut, List.find?]

theorem cacheGet_cachePut_ne (c : Cache) (p q : String) (r : CacheRecord)
    (h : q ≠ p) : cacheGet (cachePut c p r) q = cacheGet c q := by
  simp [cacheGet, cachePut, List.find?, h.symm]

theorem statFile_isSome_of_mem {fs : DatFS} {p : String} {fi : FileInfo}
    (h : (p, fi) ∈ fs) : (statFile fs p).isSome := by
  have h1 : (fs.find? (fun e => decide (e.fst = p))).isSome := by
    rw [List.find?_isSome]
    exact ⟨(p, fi), h, by simp⟩
  unfold statFile
  cases hf : fs.find? (fun e => decide (e.fst = p)) with
  | none => rw [hf] at h1; simp at h1
  | some e => rfl

theorem yStat_isSome_of_mem {fs : YamlFS} {p : String} {y : YamlFile}
    (h : (p, y) ∈ fs) : (yStat fs p).isSome := by
  have h1 : (fs.find? (fun e => decide (e.fst = p))).isSome := by
    rw [List.find?_isSome]
    exact ⟨(p, y), h, by simp⟩
  unfold yStat
  cases hf : fs.find? (fun e => decide (e.fst = p)) with
  | none => rw [hf] at h1; simp at h1
  | some e => rfl

theorem listIsPrefix_exists {xs ys : List Char} (h : listIsPrefix xs ys = true) :
    ∃ t, ys = xs ++ t := by
  induction xs generalizing ys with
  | nil => exact ⟨ys, rfl⟩
  | cons a as ih =>
    cases ys with
    | nil => simp [listIsPrefix] at h
    | cons b bs =>
      simp only [listIsPrefix] at h
      split at h
      · obtain ⟨t, ht⟩ := ih h
        subst ht
        exact ⟨t, by simp_all⟩
      · exact absurd h (by simp)

theorem stripRoot_eq {root p rel : String} (h : stripRoot root p = some rel) :
    p = pathJoin root rel := by
  unfold stripRoot at h
  split at h
  · next hpre =>
    obtain ⟨t, ht⟩ := listIsPrefix_exists hpre
    have hd : List.drop (root.data.length + 1) p.data = t := by
      rw [ht]
      exact List.drop_left' (by simp)
    have hrel : rel = String.mk t := by
      have h2 := Option.some.inj h
      rw [← h2, hd]
    subst hrel
    cases p with
    | mk pd =>
      simp only [pathJoin]
      have hpd : pd = root.data ++ ['/'] ++ t := ht
      rw [hpd]
      simp
  · exact absurd h (by simp)

/-! ## Helper lemmas: walker and common files -/

theorem find_dat_files_stat {fs : DatFS} {root rel : String}
    (h : rel ∈ find_dat_files fs root) :
    (statFile fs (pathJoin root rel)).isSome := by
  unfold find_dat_files at h
  rw [List.mem_filterMap] at h
  obtain ⟨e, he, hsome⟩ := h
  split at hsome
  · have heq := stripRoot_eq hsome
    rw [← heq]
    exact statFile_isSome_of_mem (show (e.fst, e.snd) ∈ fs from he)
  · exact absurd hsome (by simp)

theorem common_files_mem {fs : DatFS} {root_a root_b rel : String} :
    rel ∈ common_files fs root_a root_b ↔
      rel ∈ find_dat_files fs root_a ∧ rel ∈ find_dat_files fs root_b := by
  unfold common_files
  rw [List.mem_filter]
  simp

theorem common_files_bothExist {fs : DatFS} {root_a root_b rel : String}
    (h : rel ∈ common_files fs root_a root_b) :
    BothExist fs root_a root_b rel := by
  rw [common_files_mem] at h
  exact ⟨find_dat_files_stat h.1, find_dat_files_stat h.2⟩

/-! ## Helper lemmas: effective hashes -/

theorem cachedFreshHash_put_ne (c : Cache) (p q : String) (r : CacheRecord)
    (m : Int) (h : q ≠ p) :
    cachedFreshHash (cachePut c p r) q m = cachedFreshHash c q m := by
  unfold cachedFreshHash
  rw [cacheGet_cachePut_ne _ _ _ _ h]

theorem effectiveHash_put_self (c : Cache) (p : String) (fi : FileInfo) :
    effectiveHash (cachePut c p ⟨fi.contentHash, fi.mtime⟩) p fi =
      fi.contentHash := by
  unfold effectiveHash cachedFreshHash
  rw [cacheGet_cachePut_self]
  simp only [ge_iff_le, le_refl, if_true]
  by_cases hc : fi.contentHash = "" <;> simp [pyTruthy, hc]

theorem effectiveHash_put_ne (c : Cache) (p q : String) (r : CacheRecord)
    (fi : FileInfo) (h : q ≠ p) :
    effectiveHash (cachePut c p r) q fi = effectiveHash c q fi := by
  unfold effectiveHash
  rw [cachedFreshHash_put_ne _ _ _ _ _ h]

theorem effectiveHash_of_stale {c : Cache} {p : String} {fi : FileInfo}
    (h : pyTruthy (cachedFreshHash c p fi.mtime) = false) :
    effectiveHash c p fi = fi.contentHash := by
  simp [effectiveHash, h]

theorem effAgree_put {fs : DatFS} {c0 c : Cache} {p : String} {fi : FileInfo}
    (hag : EffAgree fs c0 c) (hstat : statFile fs p = some fi)
    (hmiss : pyTruthy (cachedFreshHash c p fi.mtime) = false) :
    EffAgree fs c0 (cachePut c p ⟨fi.contentHash, fi.mtime⟩) := by
  intro q fq hq
  by_cases hqp : q = p
  · subst hqp
    have hfi : fq = fi := by
      rw [hq] at hstat
      exact Option.some.inj hstat
    subst hfi
    rw [effectiveHash_put_self]
    rw [← hag q fq hq]
    exact (effectiveHash_of_stale hmiss).symm
  · rw [effectiveHash_put_ne _ _ _ _ _ hqp]
    exact hag q fq hq

/-! ## Helper lemmas: the comparison body -/

theorem compareCore_differ (fa fb : FileInfo) (pa pb : String) (c : Cache) :
    (compareCore fa fb pa pb c).differ =
      (decide (fa.mtime ≠ fb.mtime) &&
        decide (effectiveHash c pa fa ≠ effectiveHash c pb fb)) := by
  unfold compareCore effectiveHash
  by_cases hmt : fa.mtime = fb.mtime
  · simp [hmt]
  · simp [hmt]

theorem compareCore_effAgree {fs : DatFS} {c0 c : Cache} {fa fb : FileInfo}
    {pa pb : String} (hag : EffAgree fs c0 c)
    (ha : statFile fs pa = some fa) (hb : statFile fs pb = some fb) :
    EffAgree fs c0 (compareCore fa fb pa pb c).cache := by
  unfold compareCore
  by_cases hmt : fa.mtime = fb.mtime
  · simpa [hmt] using hag
  · have hne : pb ≠ pa := by
      intro hpp
      rw [hpp] at hb
      rw [ha] at hb
      exact hmt (by rw [Option.some.inj hb])
    simp only [if_neg hmt]
    cases hta : pyTruthy (cachedFreshHash c pa fa.mtime) <;>
      cases htb : pyTruthy (cachedFreshHash c pb fb.mtime)
    · simp only [hta, htb, Bool.false_eq_true, if_false]
      exact effAgree_put (effAgree_put hag ha hta) hb
        (by rw [cachedFreshHash_put_ne _ _ _ _ _ hne]; exact htb)
    · simp only [hta, htb, Bool.false_eq_true, if_false, if_true]
      exact effAgree_put hag ha hta
    · simp only [hta, htb, Bool.false_eq_true, if_false, if_true]
      exact effAgree_put hag hb htb
    · simpa [hta, htb] using hag

theorem compare_files_spec {fs : DatFS} {root_a root_b rel : String}
    {c0 c : Cache} (hag : EffAgree fs c0 c)
    (hex : BothExist fs root_a root_b rel) :
    ∃ r, compare_files fs root_a root_b rel c = .ok r ∧
      r.differ = diffDecision fs c0 root_a root_b rel ∧
      EffAgree fs c0 r.cache := by
  obtain ⟨fa, hfa⟩ := Option.isSome_iff_exists.mp hex.1
  obtain ⟨fb, hfb⟩ := Option.isSome_iff_exists.mp hex.2
  refine ⟨compareCore fa fb (pathJoin root_a rel) (pathJoin root_b rel) c,
    ?_, ?_, ?_⟩
  · unfold compare_files
    simp only [hfa, hfb]
  · rw [compareCore_differ]
    unfold diffDecision
    rw [hfa, hfb]
    rw [hag _ _ hfa, hag _ _ hfb]
  · exact compareCore_effAgree hag hfa hfb

theorem runComparisons_spec {fs : DatFS} {root_a root_b : String} (c0 : Cache) :
    ∀ (order : List String) (c : Cache), EffAgree fs c0 c →
      (∀ rel ∈ order, BothExist fs root_a root_b rel) →
      ∃ cEnd, runComparisons fs root_a root_b order c =
          .ok (order.filter (fun rel => diffDecision fs c0 root_a root_b rel),
            cEnd) ∧
        EffAgree fs c0 cEnd := by
  intro order
  induction order with
  | nil => exact fun c hag _ => ⟨c, rfl, hag⟩
  | cons rel rest ih =>
    intro c hag hex
    obtain ⟨r, hr, hdiff, hag1⟩ := compare_files_spec hag (hex rel (by simp))
    obtain ⟨cEnd, hrun, hag2⟩ := ih r.cache hag1 (fun x hx => hex x (by simp [hx]))
    refine ⟨cEnd, ?_, hag2⟩
    unfold runComparisons
    simp only [hr, hrun, List.filter_cons, hdiff]

/-! ## Claim C3: the modification-time short-circuit -/

/-- Claim C3: for every pair of files whose modification times are exactly
equal, compare_files declares them not differing and computes no hash at all
(no path is streamed by compute_file_hash), whatever their contents are. -/
theorem claim_C3_mtime_equal_same_without_hashing (fs : DatFS)
    (root_a root_b rel : String) (cache : Cache) (fa fb : FileInfo)
    (hfa : statFile fs (pathJoin root_a rel) = some fa)
    (hfb : statFile fs (pathJoin root_b rel) = some fb)
    (hmt : fa.mtime = fb.mtime) :
    (compare_files fs root_a root_b rel cache).map
        (fun r => (r.differ, r.hashed)) = .ok (false, []) := by
  unfold compare_files
  simp only [hfa, hfb]
  unfold compareCore
  simp [hmt, Except.map]

/-- Fixture for the C3 witness: identical modification times, differing
content digests. -/
def fsC3 : DatFS := [("A/x.DAT", ⟨"h1", 5⟩), ("B/x.DAT", ⟨"h2", 5⟩)]

theorem claim_C3_witness :
    (compare_files fsC3 "A" "B" "x.DAT" []).map
        (fun r => (r.differ, r.hashed)) = .ok (false, []) :=
  claim_C3_mtime_equal_same_without_hashing fsC3 "A" "B" "x.DAT" []
    ⟨"h1", 5⟩ ⟨"h2", 5⟩ rfl rfl rfl

/-! ## Claim C10: the equal-mtime branch leaves the cache untouched -/

/-- Claim C10: for every pair of files whose modification times are exactly
equal, compare_files returns the shared hash cache completely unchanged; the
cache is only ever mutated on the branch where the times differ. -/
theorem claim_C10_mtime_equal_cache_unchanged (fs : DatFS)
    (root_a root_b rel : String) (cache : Cache) (fa fb : FileInfo)
    (hfa : statFile fs (pathJoin root_a rel) = some fa)
    (hfb : statFile fs (pathJoin root_b rel) = some fb)
    (hmt : fa.mtime = fb.mtime) :
    (compare_files fs root_a root_b rel cache).map CmpResult.cache =
      .ok cache := by
  unfold compare_files
  simp only [hfa, hfb]
  unfold compareCore
  simp [hmt, Except.map]

/-- Fixture for the C10 witness: a nonempty cache holding a stale record, so
the statement is not vacuous about leaving records alone. -/
def cacheC10 : Cache := [("A/x.DAT", ⟨"old", 3⟩)]

theorem claim_C10_witness :
    (compare_files fsC3 "A" "B" "x.DAT" cacheC10).map CmpResult.cache =
      .ok cacheC10 :=
  claim_C10_mtime_equal_cache_unchanged fsC3 "A" "B" "x.DAT" cacheC10
    ⟨"h1", 5⟩ ⟨"h2", 5⟩ rfl rfl rfl

/-! ## Claim C8: artifact exactly when hashes differ and the diff is nonempty -/

/-- Claim C8: in mode B an artifact is written at
output_dir/<relative_path>.diff exactly when the two md5 digests differ and
the unified diff is nonempty; when the diff is empty no file at all is
created for the pair. -/
theorem claim_C8_artifact_iff_hash_and_diff (fs : YamlFS)
    (file1 file2 output_dir dir1 : String) (y1 y2 : YamlFile)
    (h1 : yStat fs file1 = some y1) (h2 : yStat fs file2 = some y2) :
    compare_file_pair fs file1 file2 output_dir dir1 =
      .ok (if y1.md5 ≠ y2.md5 ∧
            unified_diff_model file1 file2 y1.lines y2.lines ≠ []
        then some (diffOutputPath output_dir dir1 file1,
          unified_diff_model file1 file2 y1.lines y2.lines)
        else none) := by
  unfold compare_file_pair
  simp only [h1, h2]
  by_cases hm : y1.md5 = y2.md5
  · simp [hm]
  · by_cases hd : unified_diff_model file1 file2 y1.lines y2.lines = [] <;>
      simp [hm, hd]

/-- Fixture for the C8 witness: differing digests and differing lines, so an
artifact is produced. -/
def fsC8 : YamlFS :=
  [("A/y.txt", ⟨"m1", ["a\n", "b\n", "c\n"]⟩),
   ("B/y.txt", ⟨"m2", ["a\n", "z\n", "c\n"]⟩)]

theorem claim_C8_witness :
    compare_file_pair fsC8 "A/y.txt" "B/y.txt" "out" "A" =
      .ok (some (diffOutputPath "out" "A" "A/y.txt",
        unified_diff_model "A/y.txt" "B/y.txt"
          ["a\n", "b\n", "c\n"] ["a\n", "z\n", "c\n"])) := by
  have h := claim_C8_artifact_iff_hash_and_diff fsC8 "A/y.txt" "B/y.txt"
    "out" "A" ⟨"m1", ["a\n", "b\n", "c\n"]⟩ ⟨"m2", ["a\n", "z\n", "c\n"]⟩
    rfl rfl
  rw [h]
  rfl

/-! ## Claims C2 and C9: cache-removal invariance and symmetry -/

theorem diffDecision_symm (fs : DatFS) (c : Cache) (root_a root_b rel : String) :
    diffDecision fs c root_a root_b rel = diffDecision fs c root_b root_a rel := by
  unfold diffDecision
  cases ha : statFile fs (pathJoin root_a rel) <;>
    cases hb : statFile fs (pathJoin root_b rel)
  · rfl
  · rfl
  · rfl
  · show (_ && _) = (_ && _)
    congr 1
    · exact decide_eq_decide.mpr ne_comm
    · exact decide_eq_decide.mpr ne_comm

theorem compare_directories_ok {fs : DatFS} {root_a root_b : String}
    {o : List String} {cf : CacheFile} {res : List String × Cache}
    (h : compare_directories fs root_a root_b o cf = .ok res) :
    ∃ c, loadCache cf = .ok c ∧
      runComparisons fs root_a root_b o c = .ok res := by
  unfold compare_directories at h
  cases hl : loadCache cf with
  | error e => rw [hl] at h; exact absurd h (by simp)
  | ok c =>
    refine ⟨c, rfl, ?_⟩
    simp only [hl] at h
    cases hr : runComparisons fs root_a root_b o c with
    | error e => simp only [hr] at h; exact absurd h (by simp)
    | ok r =>
      simp only [hr] at h
      simp only [Except.ok.injEq] at h
      rw [h]

/-- Claim C2: for every pair of input trees, the DifferenceReport (the set of
relative paths reported as differing) computed from a missing cache file
equals the one computed from the warm cache that a prior run over the same
trees persisted, for any completion orders of the three runs; no comparison
decision depends on cache presence. -/
theorem claim_C2_cache_removal_invariance (fs : DatFS) (root_a root_b : String)
    (o0 o1 o2 r0 L1 L2 : List String) (cw c1 c2 : Cache)
    (h0 : o0.Perm (common_files fs root_a root_b))
    (h1 : o1.Perm (common_files fs root_a root_b))
    (h2 : o2.Perm (common_files fs root_a root_b))
    (hprior : compare_directories fs root_a root_b o0 .absent = .ok (r0, cw))
    (hwarm : compare_directories fs root_a root_b o1 (.wellFormed cw) =
      .ok (L1, c1))
    (hcold : compare_directories fs root_a root_b o2 .absent = .ok (L2, c2)) :
    L1.toFinset = L2.toFinset := by
  obtain ⟨ce0, hl0, hr0⟩ := compare_directories_ok hprior
  obtain ⟨ce1, hl1, hr1⟩ := compare_directories_ok hwarm
  obtain ⟨ce2, hl2, hr2⟩ := compare_directories_ok hcold
  have hce0 : ce0 = [] := (Except.ok.inj hl0).symm
  have hce1 : cw = ce1 := Except.ok.inj hl1
  have hce2 : ce2 = [] := (Except.ok.inj hl2).symm
  subst hce0 hce2
  subst hce1
  have hex : ∀ o : List String, o.Perm (common_files fs root_a root_b) →
      ∀ rel ∈ o, BothExist fs root_a root_b rel :=
    fun o ho rel h => common_files_bothExist (ho.subset h)
  obtain ⟨cE0, hq0, hagw⟩ :=
    runComparisons_spec [] o0 [] (fun _ _ _ => rfl) (hex o0 h0)
  rw [hr0] at hq0
  have hcw : cw = cE0 := congrArg Prod.snd (Except.ok.inj hq0)
  obtain ⟨cE1, hq1, _⟩ :=
    runComparisons_spec [] o1 cw (hcw.symm ▸ hagw) (hex o1 h1)
  rw [hr1] at hq1
  have hL1 : L1 = o1.filter (fun rel => diffDecision fs [] root_a root_b rel) :=
    congrArg Prod.fst (Except.ok.inj hq1)
  obtain ⟨cE2, hq2, _⟩ :=
    runComparisons_spec [] o2 [] (fun _ _ _ => rfl) (hex o2 h2)
  rw [hr2] at hq2
  have hL2 : L2 = o2.filter (fun rel => diffDecision fs [] root_a root_b rel) :=
    congrArg Prod.fst (Except.ok.inj hq2)
  subst hL1 hL2
  ext x
  simp only [List.mem_toFinset, List.mem_filter, h1.mem_iff, h2.mem_iff]

/-- Claim C9: for every pair of input trees and a shared starting cache file,
a mode-A run over (A, B) and a mode-A run over (B, A) report the same set of
relative paths as differing, for any completion orders of the two runs. -/
theorem claim_C9_symmetry (fs : DatFS) (root_a root_b : String)
    (cf : CacheFile) (o1 o2 L1 L2 : List String) (c1 c2 : Cache)
    (h1 : o1.Perm (common_files fs root_a root_b))
    (h2 : o2.Perm (common_files fs root_b root_a))
    (hrun1 : compare_directories fs root_a root_b o1 cf = .ok (L1, c1))
    (hrun2 : compare_directories fs root_b root_a o2 cf = .ok (L2, c2)) :
    L1.toFinset = L2.toFinset := by
  obtain ⟨ca, hla, hra⟩ := compare_directories_ok hrun1
  obtain ⟨cb, hlb, hrb⟩ := compare_directories_ok hrun2
  have hcab : ca = cb := by
    rw [hla] at hlb
    exact Except.ok.inj hlb
  subst hcab
  have hexa : ∀ rel ∈ o1, BothExist fs root_a root_b rel :=
    fun rel h => common_files_bothExist (h1.subset h)
  have hexb : ∀ rel ∈ o2, BothExist fs root_b root_a rel :=
    fun rel h => common_files_bothExist (h2.subset h)
  obtain ⟨cE1, hq1, _⟩ :=
    runComparisons_spec ca o1 ca (fun _ _ _ => rfl) hexa
  rw [hra] at hq1
  have hL1 : L1 = o1.filter (fun rel => diffDecision fs ca root_a root_b rel) :=
    congrArg Prod.fst (Except.ok.inj hq1)
  obtain ⟨cE2, hq2, _⟩ :=
    runComparisons_spec ca o2 ca (fun _ _ _ => rfl) hexb
  rw [hrb] at hq2
  have hL2 : L2 = o2.filter (fun rel => diffDecision fs ca root_b root_a rel) :=
    congrArg Prod.fst (Except.ok.inj hq2)
  subst hL1 hL2
  ext x
  simp only [List.mem_toFinset, List.mem_filter, h1.mem_iff, h2.mem_iff,
    common_files_mem, diffDecision_symm fs ca root_a root_b]
  constructor
  · rintro ⟨⟨u, v⟩, w⟩
    exact ⟨⟨v, u⟩, w⟩
  · rintro ⟨⟨u, v⟩, w⟩
    exact ⟨⟨v, u⟩, w⟩

/-- Fixture for the C2 witness: one common .DAT file with differing
modification times and differing digests. -/
def fsC2 : DatFS := [("A/x.DAT", ⟨"h1", 1⟩), ("B/x.DAT", ⟨"h2", 2⟩)]

/-- The cache persisted by a prior run of the C2 fixture from no cache. -/
def cwC2 : Cache := [("B/x.DAT", ⟨"h2", 2⟩), ("A/x.DAT", ⟨"h1", 1⟩)]

theorem claim_C2_witness :
    (["x.DAT"] : List String).toFinset = (["x.DAT"] : List String).toFinset :=
  claim_C2_cache_removal_invariance fsC2 "A" "B"
    ["x.DAT"] ["x.DAT"] ["x.DAT"] ["x.DAT"] ["x.DAT"] ["x.DAT"]
    cwC2 cwC2 cwC2 (by decide) (by decide) (by decide) rfl rfl rfl

/-- Fixture for the C9 witness: the same snapshot compared in both
directions. -/
def fsC9 : DatFS := [("A/x.DAT", ⟨"h1", 1⟩), ("B/x.DAT", ⟨"h2", 2⟩)]

/-- Final cache of the C9 witness run over (A, B). -/
def cabC9 : Cache := [("B/x.DAT", ⟨"h2", 2⟩), ("A/x.DAT", ⟨"h1", 1⟩)]

/-- Final cache of the C9 witness run over (B, A). -/
def cbaC9 : Cache := [("A/x.DAT", ⟨"h1", 1⟩), ("B/x.DAT", ⟨"h2", 2⟩)]

theorem claim_C9_witness :
    (["x.DAT"] : List String).toFinset = (["x.DAT"] : List String).toFinset :=
  claim_C9_symmetry fsC9 "A" "B" .absent ["x.DAT"] ["x.DAT"]
    ["x.DAT"] ["x.DAT"] cabC9 cbaC9 (by decide) (by decide) rfl rfl

/-! ## Claim C7: the counterpart derivation -/

/-- Claim C7 is refuted by the code: evaluating the mode-B counterpart
derivation at dir1 = "data", dir2 = "out" and the walked file
"data/database.yml", str.replace substitutes the second occurrence of "data"
inside the later path component as well, producing "out/outbase.yml", while
the structural substitution the spec describes yields "out/database.yml". -/
theorem claim_C7_replace_hits_inner_occurrence :
    counterpart "data" "out" "data/database.yml" = "out/outbase.yml" ∧
    specCounterpart "data" "out" "data/database.yml" = "out/database.yml" ∧
    counterpart "data" "out" "data/database.yml" ≠
      specCounterpart "data" "out" "data/database.yml" := by
  refine ⟨rfl, rfl, ?_⟩
  decide

/-! ## Claim C4: loading the persisted cache -/

/-- Fixture for the C4 counterexample: a healthy snapshot whose comparison
would succeed, so the failure is caused by the cache file alone. -/
def fsC4 : DatFS := [("A/x.DAT", ⟨"h1", 1⟩), ("B/x.DAT", ⟨"h2", 2⟩)]

/-- Claim C4 counterexample: on a malformed cache file the load does not
return an empty mapping; json.load raises, nothing catches it, and the whole
comparison run fails instead of proceeding. -/
theorem claim_C4_counterexample :
    loadCache CacheFile.malformed = .error RunError.jsonDecodeError ∧
    compare_directories fsC4 "A" "B" ["x.DAT"] CacheFile.malformed =
      .error RunError.jsonDecodeError :=
  ⟨rfl, rfl⟩

/-- Claim C4 amended: loading tolerates only absence, not corruption: an
absent cache file yields the empty mapping and the run proceeds, a
well-formed one yields its mapping, and a malformed one raises
JSONDecodeError, which propagates and fails the run. -/
theorem claim_C4_amended_load_behavior (cf : CacheFile) :
    loadCache cf = (match cf with
      | .absent => .ok []
      | .wellFormed c => .ok c
      | .malformed => .error RunError.jsonDecodeError) := by
  cases cf <;> rfl

/-! ## Claim C6: ordering of the mode-A report -/

/-- Lexicographic comparison of character lists by code point, the order in
which relative path strings compare. -/
def lexLE : List Char → List Char → Bool
  | [], _ => true
  | _ :: _, [] => false
  | a :: as, b :: bs => if a = b then lexLE as bs else decide (a < b)

/-- Lexicographic order on path strings. -/
def pathLE (x y : String) : Bool := lexLE x.data y.data

/-- A list of relative paths is sorted when every adjacent pair is in
lexicographic order. -/
def isSortedByPath : List String → Bool
  | [] => true
  | [_] => true
  | x :: y :: rest => pathLE x y && isSortedByPath (y :: rest)

/-- Fixture for the C6 counterexample: two common .DAT files, both differing,
listed with "b.DAT" ahead of "a.DAT". -/
def fsC6 : DatFS :=
  [("A/b.DAT", ⟨"h1", 1⟩), ("A/a.DAT", ⟨"g1", 1⟩),
   ("B/b.DAT", ⟨"h2", 2⟩), ("B/a.DAT", ⟨"g2", 2⟩)]

/-- Claim C6 counterexample: under the valid completion order
["b.DAT", "a.DAT"] the mode-A run returns the differing paths exactly in
that order, which is not sorted by relative path; the code never sorts, so
the order of the final report depends on completion order. -/
theorem claim_C6_counterexample :
    (["b.DAT", "a.DAT"] : List String).Perm (common_files fsC6 "A" "B") ∧
    (compare_directories fsC6 "A" "B" ["b.DAT", "a.DAT"] .absent).map
        Prod.fst = .ok ["b.DAT", "a.DAT"] ∧
    isSortedByPath ["b.DAT", "a.DAT"] = false := by
  refine ⟨by decide, rfl, rfl⟩

/-- Claim C6 amended: mode A returns the differing relative paths in worker
completion order, unsorted: the report equals the completion order filtered
by the comparison decision, so its set is deterministic with respect to the
input but its order follows the nondeterministic completion order. -/
theorem claim_C6_amended_completion_order (fs : DatFS) (root_a root_b : String)
    (order : List String)
    (h : order.Perm (common_files fs root_a root_b)) :
    (compare_directories fs root_a root_b order .absent).map Prod.fst =
      .ok (order.filter (fun rel => diffDecision fs [] root_a root_b rel)) := by
  obtain ⟨cE, hq, _⟩ := runComparisons_spec [] order []
    (fun _ _ _ => rfl)
    (fun rel hrel => common_files_bothExist (h.subset hrel))
  unfold compare_directories
  simp only [loadCache, hq]
  rfl

theorem claim_C6_amended_witness :
    (compare_directories fsC6 "A" "B" ["b.DAT", "a.DAT"] .absent).map
        Prod.fst =
      .ok ((["b.DAT", "a.DAT"] : List String).filter
        (fun rel => diffDecision fsC6 [] "A" "B" rel)) :=
  claim_C6_amended_completion_order fsC6 "A" "B" ["b.DAT", "a.DAT"] (by decide)

/-! ## Claim C5: error isolation in the concurrent fan-out -/

theorem allFilesUnder_stat {fs : YamlFS} {dir1 f : String}
    (h : f ∈ allFilesUnder fs dir1) : (yStat fs f).isSome := by
  unfold allFilesUnder at h
  rw [List.mem_filterMap] at h
  obtain ⟨e, he, hsome⟩ := h
  split at hsome
  · have heq : e.fst = f := Option.some.inj hsome
    rw [← heq]
    exact yStat_isSome_of_mem (show (e.fst, e.snd) ∈ fs from he)
  · exact absurd hsome (by simp)

theorem mem_zip_map {l : List String} {g : String → String} {a : String}
    (h : a ∈ l) : (a, g a) ∈ l.zip (l.map g) := by
  induction l with
  | nil => simp at h
  | cons hd tl ih =>
    rcases List.mem_cons.mp h with rfl | htl
    · simp
    · simp only [List.map_cons, List.zip_cons_cons]
      exact List.mem_cons_of_mem _ (ih htl)

theorem runPairs_error_of_mem {fs : YamlFS} {output_dir dir1 : String} :
    ∀ (pairs : List (String × String)) (f1 f2 : String) (e : FileAccessError),
      (f1, f2) ∈ pairs →
      compare_file_pair fs f1 f2 output_dir dir1 = .error e →
      ∃ e2, runPairs fs output_dir dir1 pairs = .error e2 := by
  intro pairs
  induction pairs with
  | nil => intro _ _ _ h; simp at h
  | cons hd tl ih =>
    intro f1 f2 e hmem hcmp
    obtain ⟨g1, g2⟩ := hd
    rcases List.mem_cons.mp hmem with heq | htl
    · obtain ⟨h1, h2⟩ := Prod.mk.injEq .. ▸ heq
      subst h1 h2
      refine ⟨e, ?_⟩
      unfold runPairs
      rw [hcmp]
    · unfold runPairs
      cases hc : compare_file_pair fs g1 g2 output_dir dir1 with
      | error e0 => exact ⟨e0, rfl⟩
      | ok art =>
        obtain ⟨e2, he2⟩ := ih f1 f2 e htl hcmp
        rw [he2]
        exact ⟨e2, rfl⟩

/-- Claim C5 amended: a file-access failure in one pair's unit of work is not
isolated: when any enumerated file of dir1 has a counterpart path that does
not exist, the FileAccessError propagates out of the result iteration and
diff_directories aborts with an error instead of recording the failure and
returning the artifacts of the remaining pairs. -/
theorem claim_C5_amended_error_aborts_run (fs : YamlFS)
    (dir1 dir2 output_dir f : String)
    (hf : f ∈ allFilesUnder fs dir1)
    (hmiss : yStat fs (counterpart dir1 dir2 f) = none) :
    ∃ e, diff_directories fs dir1 dir2 output_dir = .error e := by
  obtain ⟨y1, hy1⟩ := Option.isSome_iff_exists.mp (allFilesUnder_stat hf)
  have hcmp : compare_file_pair fs f (counterpart dir1 dir2 f) output_dir dir1 =
      .error (.missing (counterpart dir1 dir2 f)) := by
    unfold compare_file_pair
    simp only [hy1, hmiss]
  have hpair : (f, counterpart dir1 dir2 f) ∈
      (allFilesUnder fs dir1).zip
        ((allFilesUnder fs dir1).map (fun g => counterpart dir1 dir2 g)) :=
    mem_zip_map hf
  obtain ⟨e2, he2⟩ := runPairs_error_of_mem _ _ _ _ hpair hcmp
  exact ⟨e2, he2⟩

/-- Fixture for the C5 counterexample: "A/x.yml" has no counterpart under B,
while the later pair ("A/y.yml", "B/y.yml") exists and differs. -/
def fsC5 : YamlFS :=
  [("A/x.yml", ⟨"m1", ["x\n"]⟩),
   ("A/y.yml", ⟨"m2", ["a\n"]⟩),
   ("B/y.yml", ⟨"m3", ["b\n"]⟩)]

/-- Claim C5 counterexample: with the C5 fixture the whole mode-B run aborts
with the FileAccessError of the missing counterpart "B/x.yml" and returns no
artifact list at all, even though the remaining pair ("A/y.yml", "B/y.yml")
on its own would have produced a diff artifact. -/
theorem claim_C5_counterexample :
    diff_directories fsC5 "A" "B" "out" =
      .error (FileAccessError.missing "B/x.yml") ∧
    runPairs fsC5 "out" "A" [("A/y.yml", "B/y.yml")] =
      .ok [(pathJoin "out" "y.yml.diff",
        unified_diff_model "A/y.yml" "B/y.yml" ["a\n"] ["b\n"])] :=
  ⟨rfl, rfl⟩

theorem claim_C5_amended_witness :
    ∃ e, diff_directories fsC5 "A" "B" "out" = .error e :=
  claim_C5_amended_error_aborts_run fsC5 "A" "B" "out" "A/x.yml"
    (by decide) rfl

/-! ## Claim C1: the cache freshness policy -/

/-- The condition the amended claim states for trusting a cache record: a
record exists for the path, its mod_time is at least the current
modification time, and its hash is a nonempty string. -/
def usableRecord (cache : Cache) (p : String) (m : Int) : Bool :=
  match cacheGet cache p with
  | some rec => decide (rec.mod_time ≥ m) && decide (rec.hash ≠ "")
  | none => false

theorem usableRecord_eq_pyTruthy (cache : Cache) (p : String) (m : Int) :
    usableRecord cache p m = pyTruthy (cachedFreshHash cache p m) := by
  unfold usableRecord cachedFreshHash
  cases hg : cacheGet cache p with
  | none => by_cases h0 : (0 : Int) ≥ m <;> simp [h0, pyTruthy]
  | some rec => by_cases hm : rec.mod_time ≥ m <;> simp [hm, pyTruthy]

theorem compareCore_hashed (fa fb : FileInfo) (pa pb : String) (cache : Cache)
    (hmt : fa.mtime ≠ fb.mtime) :
    (compareCore fa fb pa pb cache).hashed =
      ((if pyTruthy (cachedFreshHash cache pa fa.mtime) then [] else [pa]) ++
        (if pyTruthy (cachedFreshHash cache pb fb.mtime) then [] else [pb])) := by
  simp only [compareCore, if_neg hmt]
  cases hta : pyTruthy (cachedFreshHash cache pa fa.mtime) <;>
    cases htb : pyTruthy (cachedFreshHash cache pb fb.mtime) <;> simp

theorem compareCore_cacheGet_a (fa fb : FileInfo) (pa pb : String)
    (cache : Cache) (hmt : fa.mtime ≠ fb.mtime) (hne : pa ≠ pb) :
    cacheGet (compareCore fa fb pa pb cache).cache pa =
      (if pyTruthy (cachedFreshHash cache pa fa.mtime) then cacheGet cache pa
        else some ⟨fa.contentHash, fa.mtime⟩) := by
  simp only [compareCore, if_neg hmt]
  cases hta : pyTruthy (cachedFreshHash cache pa fa.mtime) <;>
    cases htb : pyTruthy (cachedFreshHash cache pb fb.mtime)
  · simp only [Bool.false_eq_true, if_false]
    rw [cacheGet_cachePut_ne _ _ _ _ hne, cacheGet_cachePut_self]
  · simp only [Bool.false_eq_true, if_false, if_true]
    rw [cacheGet_cachePut_self]
  · simp only [Bool.false_eq_true, if_false, if_true]
    rw [cacheGet_cachePut_ne _ _ _ _ hne]
  · simp

theorem compareCore_cacheGet_b (fa fb : FileInfo) (pa pb : String)
    (cache : Cache) (hmt : fa.mtime ≠ fb.mtime) (hne : pb ≠ pa) :
    cacheGet (compareCore fa fb pa pb cache).cache pb =
      (if pyTruthy (cachedFreshHash cache pb fb.mtime) then cacheGet cache pb
        else some ⟨fb.contentHash, fb.mtime⟩) := by
  simp only [compareCore, if_neg hmt]
  cases hta : pyTruthy (cachedFreshHash cache pa fa.mtime) <;>
    cases htb : pyTruthy (cachedFreshHash cache pb fb.mtime)
  · simp only [Bool.false_eq_true, if_false]
    rw [cacheGet_cachePut_self]
  · simp only [Bool.false_eq_true, if_false, if_true]
    rw [cacheGet_cachePut_ne _ _ _ _ hne]
  · simp only [Bool.false_eq_true, if_false, if_true]
    rw [cacheGet_cachePut_self]
  · simp

/-- Claim C1 amended: when the modification times differ, the comparator
uses a cached hash for a side exactly when the cache holds a record for that
side's absolute path whose mod_time is at least the file's current
modification time and whose hash is a nonempty string (Python truthiness of
the retrieved value); otherwise, and only then, the side's content hash is
recomputed by streaming the file and the cache record for that path is
overwritten with the new hash and the current modification time. -/
theorem claim_C1_amended_cache_policy (fs : DatFS) (root_a root_b rel : String)
    (cache : Cache) (fa fb : FileInfo) (r : CmpResult)
    (hfa : statFile fs (pathJoin root_a rel) = some fa)
    (hfb : statFile fs (pathJoin root_b rel) = some fb)
    (hmt : fa.mtime ≠ fb.mtime)
    (hr : compare_files fs root_a root_b rel cache = .ok r) :
    r.hashed = ((if usableRecord cache (pathJoin root_a rel) fa.mtime then []
        else [pathJoin root_a rel]) ++
      (if usableRecord cache (pathJoin root_b rel) fb.mtime then []
        else [pathJoin root_b rel])) ∧
    cacheGet r.cache (pathJoin root_a rel) =
      (if usableRecord cache (pathJoin root_a rel) fa.mtime then
        cacheGet cache (pathJoin root_a rel)
      else some ⟨fa.contentHash, fa.mtime⟩) ∧
    cacheGet r.cache (pathJoin root_b rel) =
      (if usableRecord cache (pathJoin root_b rel) fb.mtime then
        cacheGet cache (pathJoin root_b rel)
      else some ⟨fb.contentHash, fb.mtime⟩) := by
  have hne : pathJoin root_a rel ≠ pathJoin root_b rel := by
    intro hpp
    rw [hpp] at hfa
    rw [hfa] at hfb
    exact hmt (by rw [Option.some.inj hfb])
  have hr2 : r = compareCore fa fb (pathJoin root_a rel)
      (pathJoin root_b rel) cache := by
    unfold compare_files at hr
    simp only [hfa, hfb, Except.ok.injEq] at hr
    exact hr.symm
  subst hr2
  rw [usableRecord_eq_pyTruthy, usableRecord_eq_pyTruthy]
  exact ⟨compareCore_hashed fa fb _ _ cache hmt,
    compareCore_cacheGet_a fa fb _ _ cache hmt hne,
    compareCore_cacheGet_b fa fb _ _ cache hmt hne.symm⟩

/-- Fixture for the C1 counterexample and witness: one common file with
differing modification times and digests. -/
def fsC1 : DatFS := [("A/x.DAT", ⟨"h1", 1⟩), ("B/x.DAT", ⟨"h2", 2⟩)]

/-- A cache holding a record for side a that is fresh in the claim's sense
(mod_time 100 is at least the current modification time 1) but whose hash is
the empty string. -/
def cacheC1 : Cache := [("A/x.DAT", ⟨"", 100⟩)]

/-- Claim C1 counterexample: the cache contains a record for side a's
absolute path whose mod_time (100) is at least the file's current
modification time (1), so by the claim the cached hash must be used and the
record left alone; the code nevertheless streams both files (side a's path
appears in the hashed list) and overwrites the record, because the cached
empty-string hash is falsy under the `if not hash_a` test. -/
theorem claim_C1_counterexample :
    cacheGet cacheC1 (pathJoin "A" "x.DAT") = some ⟨"", 100⟩ ∧
    ((100 : Int) ≥ 1) ∧
    (compare_files fsC1 "A" "B" "x.DAT" cacheC1).map
        (fun r => (r.hashed, cacheGet r.cache (pathJoin "A" "x.DAT"))) =
      .ok ([pathJoin "A" "x.DAT", pathJoin "B" "x.DAT"], some ⟨"h1", 1⟩) :=
  ⟨rfl, by decide, rfl⟩

/-- A cache usable for side a in the amended sense: fresh record with a
nonempty hash; side b has no record. -/
def cacheC1w : Cache := [("A/x.DAT", ⟨"hA", 100⟩)]

/-- The result of the C1 witness run: side a served from the cache, side b
recomputed and inserted. -/
def rC1w : CmpResult :=
  ⟨true, cachePut cacheC1w (pathJoin "B" "x.DAT") ⟨"h2", 2⟩,
    [pathJoin "B" "x.DAT"]⟩

theorem claim_C1_amended_witness :
    rC1w.hashed = ((if usableRecord cacheC1w (pathJoin "A" "x.DAT") 1 then []
        else [pathJoin "A" "x.DAT"]) ++
      (if usableRecord cacheC1w (pathJoin "B" "x.DAT") 2 then []
        else [pathJoin "B" "x.DAT"])) ∧
    cacheGet rC1w.cache (pathJoin "A" "x.DAT") =
      (if usableRecord cacheC1w (pathJoin "A" "x.DAT") 1 then
        cacheGet cacheC1w (pathJoin "A" "x.DAT")
      else some ⟨"h1", 1⟩) ∧
    cacheGet rC1w.cache (pathJoin "B" "x.DAT") =
      (if usableRecord cacheC1w (pathJoin "B" "x.DAT") 2 then
        cacheGet cacheC1w (pathJoin "B" "x.DAT")
      else some ⟨"h2", 2⟩) :=
  claim_C1_amended_cache_policy fsC1 "A" "B" "x.DAT" cacheC1w
    ⟨"h1", 1⟩ ⟨"h2", 2⟩ rC1w rfl rfl (by decide) rfl
